import Mathlib

/-!
Verification of the handle_music repository (a Python CLI organizing MP3
files) against its natural-language specification.

Python strings are modelled as `List Char` so that every operation is a
structurally recursive, kernel-evaluable Lean function.  Filesystem-dependent
primitives (the glob of a real directory tree, id3 tag reading, file
modification times, the regex patterns loaded from the JSON settings file)
are parameters of the definitions; everything computed by the Python code
itself (`os.path.join`, `re.split(' - ', ...)`, `str.strip`, slicing,
the progress-bar arithmetic, the settings-dictionary updates) is translated
directly from the source.
-/

/-- A Python string, modelled as its list of characters. -/
abbrev Str := List Char

/-- Conversion from a Lean string literal to the model type. -/
def toStr (s : String) : Str := s.data

/-- Python `str.strip` whitespace test (space, tab, newline, CR, VT, FF). -/
def isPySpace (c : Char) : Bool :=
  c = ' ' || c = '\t' || c = '\n' || c = '\r' || c = '\x0b' || c = '\x0c'

/-- Python `str.strip()`: drop whitespace from both ends. -/
def strTrim (s : Str) : Str :=
  ((s.dropWhile isPySpace).reverse.dropWhile isPySpace).reverse

/-- Python slicing `s[:-n]`: everything but the last `n` characters
(the empty string when `n ≥ len(s)`). -/
def strDropRight (n : Nat) (s : Str) : Str := s.take (s.length - n)

/-- Does `p` occur at the start of `s`? (structural, for kernel evaluation) -/
def strStartsWith : Str → Str → Bool
  | [], _ => true
  | _ :: _, [] => false
  | p :: ps, c :: cs => p == c && strStartsWith ps cs

/-- Does `p` occur at the end of `s`? -/
def strEndsWith (p s : Str) : Bool := strStartsWith p.reverse s.reverse

/-- Worker for `strSplitOn`, fuelled to stay structurally recursive.
`acc` is the current chunk, reversed. -/
def splitGo (sep : Str) : Nat → Str → Str → List Str
  | _, acc, [] => [acc.reverse]
  | 0, acc, rest => [acc.reverse ++ rest]
  | fuel + 1, acc, c :: rest =>
    if strStartsWith sep (c :: rest) then
      acc.reverse :: splitGo sep fuel [] (List.drop sep.length (c :: rest))
    else
      splitGo sep fuel (c :: acc) rest

/-- Python `re.split(sep, s)` for a literal separator `sep` (the program only
splits on the literal `' - '`): left-to-right, non-overlapping. -/
def strSplitOn (sep s : Str) : List Str :=
  if sep = [] then [s] else splitGo sep s.length [] s

/-- Worker for `strReplaceAll`, fuelled to stay structurally recursive. -/
def replGo (pat repl : Str) : Nat → Str → Str
  | _, [] => []
  | 0, s => s
  | fuel + 1, c :: rest =>
    if strStartsWith pat (c :: rest) then
      repl ++ replGo pat repl fuel (List.drop pat.length (c :: rest))
    else
      c :: replGo pat repl fuel rest

/-- Python `re.sub(pat, repl, s)` for a literal pattern: replace every
left-to-right, non-overlapping occurrence. -/
def strReplaceAll (pat repl s : Str) : Str :=
  if pat = [] then s else replGo pat repl s.length s

/-- Python `os.path.join(a, b)` on POSIX: an absolute `b` discards `a`; a
separator is inserted only when `a` does not already end with one. -/
def ospJoin (a b : Str) : Str :=
  if strStartsWith (toStr "/") b then b
  else if a = [] then b
  else if strEndsWith (toStr "/") a then a ++ b
  else a ++ toStr "/" ++ b

/-- The string `'/*' * k` from `find_files`. -/
def repeatSlashStar : Nat → Str
  | 0 => []
  | k + 1 => toStr "/*" ++ repeatSlashStar k

/-- One component of an `fnmatch`-style pattern, restricted to the shapes the
program produces (`*`, `*.mp3`, and literal directory names); a leading `*`
matches any sequence of characters but, as in `glob`, not a name starting
with a dot. -/
def compMatch (pat comp : Str) : Bool :=
  match pat with
  | '*' :: rest => strEndsWith rest comp && !(strStartsWith (toStr ".") comp)
  | _ => pat == comp

/-- Componentwise match of a slash-split glob pattern against a slash-split
file path. -/
def pathMatch : List Str → List Str → Bool
  | [], [] => true
  | p :: ps, c :: cs => compMatch p c && pathMatch ps cs
  | _, _ => false

/-- `glob.glob(pat)` over a filesystem modelled as the list of absolute
paths of its files: the files whose path matches the pattern. -/
def globMatch (fs : List Str) (pat : Str) : List Str :=
  fs.filter (fun f => pathMatch (strSplitOn (toStr "/") pat) (strSplitOn (toStr "/") f))

/-- `per_tools.find_files(source, pattern, depth)`.
`glb` abstracts a `glob.glob` call against the real filesystem;
`subdirs` is the list of directory paths found by `os.walk(source)` below
the top directory, relative to `source` (the physical tree, hence
independent of how `source` is spelled).
* `depth = none`: glob `os.path.join(root, pattern)` for every root that
  `os.walk(source)` yields — `source` itself and each subdirectory.
* `depth = some d`: for each `k < d`, glob
  `os.path.join(source, '/*' * k, pattern)`. -/
def find_files (glb : Str → List Str) (subdirs : List Str)
    (source pattern : Str) : Option Nat → List Str
  | none =>
    (source :: subdirs.map (fun rel => ospJoin source rel)).flatMap
      (fun root => glb (ospJoin root pattern))
  | some d =>
    (List.range d).flatMap
      (fun k => glb (ospJoin (ospJoin source (repeatSlashStar k)) pattern))

/-- Python `a // b` on machine integers: fails (ZeroDivisionError) when
`b = 0`. -/
def pyFloorDiv (a b : Nat) : Option Nat :=
  if b = 0 then none else some (a / b)

/-- Round `n / m` to the nearest integer, ties to even — the rounding used
when Python formats a float with a fixed number of decimals. -/
def roundHalfEven (n m : Nat) : Nat :=
  let q := n / m
  let r := n % m
  if 2 * r < m then q
  else if m < 2 * r then q + 1
  else if q % 2 = 0 then q else q + 1

/-- The percentage `100 * (iteration / float(total))` of `ProgressBar.print`,
scaled by `10 ^ decimals` and rounded for display; `none` is the
ZeroDivisionError raised when `total = 0`. -/
def pctScaled (decimals iteration total : Nat) : Option Nat :=
  if total = 0 then none
  else some (roundHalfEven (100 * iteration * 10 ^ decimals) total)

/-- Decimal digits of a natural number. -/
def natStr (n : Nat) : Str := Nat.toDigits 10 n

/-- Render a scaled percentage with `decimals` digits after the point,
as Python's `'{0:.<decimals>f}'.format` does. -/
def formatScaled (decimals scaled : Nat) : Str :=
  if decimals = 0 then natStr scaled
  else
    natStr (scaled / 10 ^ decimals) ++
      '.' :: (List.replicate (decimals - (natStr (scaled % 10 ^ decimals)).length) '0' ++
        natStr (scaled % 10 ^ decimals))

/-- `ProgressBar.print`: the line `'\r%s |%s| %s%% %s' % (prefix, bar,
percent, suffix)` written to the terminal, where
`percent = '{0:.<decimals>f}'.format(100 * (iteration / float(total)))` and
the bar has `int(length * iteration // total)` fill characters.  `none` is
the ZeroDivisionError raised when `total = 0`. -/
def pbRender (pre suf : Str) (barLength decimals iteration total : Nat) : Option Str :=
  match pctScaled decimals iteration total,
        pyFloorDiv (barLength * iteration) total with
  | some scaled, some filledLength =>
    some ('\r' :: pre ++ toStr " |" ++
      (List.replicate filledLength '█' ++ List.replicate (barLength - filledLength) '-') ++
      toStr "| " ++ formatScaled decimals scaled ++ toStr "% " ++ suf)
  | _, _ => none

/-- The pieces of configuration `id3_correct` takes from the settings file:
the two "featuring"-marker substitutions `re.sub(sd.feat, ' ft. ', ·)` and
`re.sub(sd.feat2, '(ft. ', ·)`, and the invalid-pattern test
`re.search(sd.invalid, ·)`.  The regex patterns themselves live in the JSON
settings document, so they are parameters here. -/
structure Id3Config where
  featSub : Str → Str
  feat2Sub : Str → Str
  invalid : Str → Bool

/-- The observable effects of a run of `id3_correct`: the returned list, the
files moved into the `_invalid` folder (as pairs of the post-rename path and
the quarantine path), and the id3 tag writes (file, artist, title). -/
structure Id3Result where
  returned : List Str
  moved : List (Str × Str)
  tagwrites : List (Str × Str × Str)
  deriving DecidableEq

/-- `actions.id3_correct` on a list of files given as `(head, basename)`
pairs (the two halves of `os.path.split`).  For each file the basename is
first rewritten by the two feature substitutions and the file renamed
accordingly; then `tags = re.split(' - ', basename)`; if the invalid pattern
matches or `len(tags) != 2` the file is moved to `source/_invalid/basename`,
otherwise the artist tag is set to `tags[0].strip()`, the title tag to
`tags[1][:-4].strip()`, and the file is appended to the returned list. -/
def id3_correct (cfg : Id3Config) (source : Str) : List (Str × Str) → Id3Result
  | [] => ⟨[], [], []⟩
  | hb :: rest =>
    let b := cfg.feat2Sub (cfg.featSub hb.2)
    let file := ospJoin hb.1 b
    let tags := strSplitOn (toStr " - ") b
    if cfg.invalid b || tags.length != 2 then
      ⟨(id3_correct cfg source rest).returned,
       (file, ospJoin (ospJoin source (toStr "_invalid")) b) :: (id3_correct cfg source rest).moved,
       (id3_correct cfg source rest).tagwrites⟩
    else
      ⟨file :: (id3_correct cfg source rest).returned,
       (id3_correct cfg source rest).moved,
       (file, strTrim (tags.headD []),
        strTrim (strDropRight 4 (tags.getD 1 []))) :: (id3_correct cfg source rest).tagwrites⟩

/-- Modelled from the spec: the `feature_tags` regex is configuration stored
in the JSON settings file, which is not among the sources; the spec only
says the corrector "normalizes 'featuring' markers via regex".  A minimal
instance matching the literal `' feat '` is used (the replacement text
`' ft. '` is fixed in `actions.py`). -/
def featPat0 : Str := toStr " feat "

/-- A concrete `Id3Config` with the minimal feature substitution, no second
substitution, and an invalid pattern that never matches. -/
def cfg0 : Id3Config :=
  ⟨strReplaceAll featPat0 (toStr " ft. "), fun b => b, fun _ => false⟩

/-- An `Id3Config` whose substitutions and invalid pattern do nothing, for
exercising the parsing path alone. -/
def cfgId : Id3Config := ⟨fun b => b, fun b => b, fun _ => false⟩

/-- The contents of a destination directory tree: each `(artist, basename)`
slot holds at most one file body — a real directory holds at most one entry
per name. -/
def DestState := String × String → Option String

/-- `shutil.copy2(src, os.path.join(destination, artist, basename))`:
writes the copied body into the `(artist, basename)` slot, overwriting
whatever was there. -/
def copy2Write (st : DestState) (artist basename content : String) : DestState :=
  fun q => if q = (artist, basename) then some content else st q

/-- `actions.file_copy` restricted to its effect on the destination tree:
for each file, `os.mkdir` of the artist folder (a no-op when it exists,
`FileExistsError` is caught) and then an overwriting `copy2` into
`destination/artist/basename`.  `artistOf` reads the id3 artist tag,
`baseNameOf` is `os.path.basename`, `contentOf` the file body. -/
def file_copy (artistOf contentOf baseNameOf : String → String) :
    List String → DestState → DestState
  | [], st => st
  | f :: fs, st =>
    file_copy artistOf contentOf baseNameOf fs
      (copy2Write st (artistOf f) (baseNameOf f) (contentOf f))

/-- The body written last for slot `q` by a `file_copy` run, if any. -/
def lastWrite (artistOf contentOf baseNameOf : String → String)
    (q : String × String) : List String → Option String
  | [] => none
  | f :: fs =>
    match lastWrite artistOf contentOf baseNameOf q fs with
    | some v => some v
    | none => if q = (artistOf f, baseNameOf f) then some (contentOf f) else none

/-- A Python `time.struct_time` as `find_uploads` compares them.  The eight
calendar fields `(tm_year, tm_mon, tm_mday, tm_hour, tm_min, tm_sec,
tm_wday, tm_yday)` order lexicographically exactly as the instants they
denote at second granularity, so they are collapsed into `fields`, the
instant in seconds; `isdst` is the ninth tuple component `tm_isdst`, which
still takes part in the tuple comparison. -/
structure StructTime where
  fields : Int
  isdst : Int

/-- Python `struct_time` tuple comparison `a < b`: the calendar fields
decide first, `tm_isdst` breaks the tie. -/
def stLt (a b : StructTime) : Bool :=
  decide (a.fields < b.fields) ||
    (decide (a.fields = b.fields) && decide (a.isdst < b.isdst))

/-- Python `struct_time` tuple comparison `a > b`. -/
def stGt (a b : StructTime) : Bool := stLt b a

/-- `time.gmtime(secs)`: the calendar fields of the instant, with
`tm_isdst = 0`. -/
def pyGmtime (secs : Int) : StructTime := ⟨secs, 0⟩

/-- `time.strptime(s, "%d/%m/%y")`: midnight of the parsed day (given here
as its instant in seconds), with `tm_isdst = -1` because the format carries
no timezone information. -/
def pyStrptimeDate (dayStart : Int) : StructTime := ⟨dayStart, -1⟩

/-- `actions.find_uploads`: enumerate `*.mp3` under the chosen source with
`find_files(source, "*.mp3")`, keep the files with
`time.gmtime(os.path.getmtime(file)) > ts` where `ts` is the
`time.strptime` of the date the user entered, then either copy the
survivors (`copyBranch = true`) or list them; both branches return the
filtered list. -/
def find_uploads (glb : Str → List Str) (subdirs : List Str) (source : Str)
    (mtime : Str → Int) (ts : Int) (copyBranch : Bool) : List Str :=
  let files := (find_files glb subdirs source (toStr "*.mp3") none).filter
    (fun f => stGt (pyGmtime (mtime f)) (pyStrptimeDate ts))
  if copyBranch then files else files

/-- A JSON scalar as stored in the flat settings document. -/
inductive JVal where
  | jstr (s : String)
  | jbool (b : Bool)
  | jnull
  deriving DecidableEq

/-- Lookup in the settings document. -/
def dictGet : List (String × JVal) → String → Option JVal
  | [], _ => none
  | e :: r, k => if e.1 = k then some e.2 else dictGet r k

/-- Python `settings[k] = v` on the (insertion-ordered) settings dict:
replace the value in place when the key exists, append otherwise. -/
def dictSet (s : List (String × JVal)) (k : String) (v : JVal) :
    List (String × JVal) :=
  if s.any (fun e => e.1 = k) then
    s.map (fun e => if e.1 = k then (k, v) else e)
  else s ++ [(k, v)]

/-- The `set_source <path>` dispatch branch of `handle_music.py`: store
`os.path.abspath(os.path.expanduser(path))` under the key `"source"` and
rewrite the document.  `expandAbs` abstracts the two `os.path` calls. -/
def set_source (expandAbs : String → String) (settings : List (String × JVal))
    (path : String) : List (String × JVal) :=
  dictSet settings "source" (JVal.jstr (expandAbs path))

/-- The `set_dest <path>` dispatch branch: as `set_source`, for the key
`"destination"`. -/
def set_dest (expandAbs : String → String) (settings : List (String × JVal))
    (path : String) : List (String × JVal) :=
  dictSet settings "destination" (JVal.jstr (expandAbs path))

/-- The `log_off` dispatch branch: `settings["logging"] = False`. -/
def log_off (settings : List (String × JVal)) : List (String × JVal) :=
  dictSet settings "logging" (JVal.jbool false)

/-- The `log_on` dispatch branch: `settings["logging"] = True`. -/
def log_on (settings : List (String × JVal)) : List (String × JVal) :=
  dictSet settings "logging" (JVal.jbool true)

/-- A three-file filesystem exercising `find_files`: two files under
`/music` (one directly, one a level deeper) and one outside it. -/
def fsEx : List Str := [toStr "/music/a.mp3", toStr "/music/sub/b.mp3", toStr "/other/c.mp3"]

/-- C3: the claim says `find_files(source, pattern, d)` returns exactly the
files matching the pattern at depth at most `d` under the source.  The code
builds `os.path.join(source, '/*' * k, pattern)`, and for `k ≥ 1` the
absolute component `'/*'…` makes `os.path.join` discard `source`, so the
glob runs from the filesystem root: on the three-file system `fsEx` with
source `/music`, pattern `*.mp3` and depth 2, the call returns
`/other/c.mp3` (outside the source) and never returns `/music/sub/b.mp3`
(at depth 2 under the source), contradicting the claim and the function's
own docstring. -/
theorem find_files_depth_escapes_source :
    find_files (globMatch fsEx) [] (toStr "/music") (toStr "*.mp3") (some 2) =
      [toStr "/music/a.mp3", toStr "/music/a.mp3", toStr "/other/c.mp3"] ∧
    toStr "/other/c.mp3" ∈
      find_files (globMatch fsEx) [] (toStr "/music") (toStr "*.mp3") (some 2) ∧
    strStartsWith (toStr "/music/") (toStr "/other/c.mp3") = false ∧
    toStr "/music/sub/b.mp3" ∉
      find_files (globMatch fsEx) [] (toStr "/music") (toStr "*.mp3") (some 2) ∧
    strStartsWith (toStr "/music/") (toStr "/music/sub/b.mp3") = true ∧
    toStr "/music/sub/b.mp3" ∈ fsEx := by decide

/-- C6: for a `ProgressBar` with `total = 4` and the default `decimals = 1`,
the rendered line reaches the percentage string `100.0%` exactly at the
fourth increment: the scaled percentages after 0..4 increments are 0, 250,
500, 750, 1000, the first four format to strings other than `"100.0"` and
are strictly below the scaled 100 %, and the full line after the fourth
increment contains `100.0% `. -/
theorem progress_bar_total_4 :
    pbRender [] [] 50 1 4 4 =
      some (toStr "\r |" ++ List.replicate 50 '█' ++ toStr "| 100.0% ") ∧
    pctScaled 1 0 4 = some 0 ∧ pctScaled 1 1 4 = some 250 ∧
    pctScaled 1 2 4 = some 500 ∧ pctScaled 1 3 4 = some 750 ∧
    pctScaled 1 4 4 = some 1000 ∧
    formatScaled 1 0 = toStr "0.0" ∧ formatScaled 1 250 = toStr "25.0" ∧
    formatScaled 1 500 = toStr "50.0" ∧ formatScaled 1 750 = toStr "75.0" ∧
    formatScaled 1 1000 = toStr "100.0" ∧
    (∀ s ∈ [0, 250, 500, 750], formatScaled 1 s ≠ toStr "100.0" ∧ s < 1000) := by
  decide

/-- C9: `ProgressBar.print` divides by `self._total`; with `total = 0` (the
bar every pipeline action builds from an empty file list before any
increment) the division raises ZeroDivisionError, and with `total > 0` the
line is always produced. -/
theorem pbRender_requires_pos_total (pre suf : Str) (barLength decimals iteration total : Nat) :
    (total = 0 → pbRender pre suf barLength decimals iteration total = none) ∧
    (0 < total → (pbRender pre suf barLength decimals iteration total).isSome = true) := by
  constructor
  · intro h
    subst h
    simp [pbRender, pctScaled]
  · intro h
    have h0 : total ≠ 0 := by omega
    simp [pbRender, pctScaled, pyFloorDiv, h0]

/-- Witness for C9 at concrete inputs: the bar with `total = 0` fails at
iteration 0, the bar with `total = 3` renders at iteration 2. -/
theorem pbRender_requires_pos_total_witness :
    pbRender [] [] 50 1 0 0 = none ∧ (pbRender [] [] 50 1 2 3).isSome = true :=
  ⟨(pbRender_requires_pos_total [] [] 50 1 0 0).1 rfl,
   (pbRender_requires_pos_total [] [] 50 1 2 3).2 (by decide)⟩

/-- C7, counterexample: a file modified exactly at the entered date's first
second — its modification instant equal to, not strictly later than, the
parsed timestamp — is returned by `find_uploads`: at the coinciding instant
the comparison `gmtime(mtime) > strptime(date)` is decided by the ninth
tuple component, `tm_isdst` 0 versus -1, and comes out true. -/
theorem find_uploads_boundary_counterexample :
    find_uploads (fun _ => [toStr "/d/f.mp3"]) [] (toStr "/d")
      (fun _ => 0) 0 true = [toStr "/d/f.mp3"] ∧
    ¬ ((0 : Int) < 0) ∧
    stGt (pyGmtime 0) (pyStrptimeDate 0) = true := by decide

/-- C7, amended: `find_uploads` returns exactly the enumerated files whose
modification timestamp is at or later than the entered date — files
modified strictly before the date are excluded, and a file modified exactly
at the date's first second is included because the `struct_time` comparison
tiebreaks on `tm_isdst` (0 from `gmtime` against -1 from `strptime`) — and
the returned list does not depend on whether the user chooses the copying
or the listing branch. -/
theorem find_uploads_filters_after_date (glb : Str → List Str) (subdirs : List Str)
    (source : Str) (mtime : Str → Int) (ts : Int) (br : Bool) (f : Str) :
    find_uploads glb subdirs source mtime ts br =
      find_uploads glb subdirs source mtime ts true ∧
    (f ∈ find_uploads glb subdirs source mtime ts br ↔
      f ∈ find_files glb subdirs source (toStr "*.mp3") none ∧ ts ≤ mtime f) := by
  cases br <;>
    simp [find_uploads, List.mem_filter, stGt, stLt, pyGmtime, pyStrptimeDate] <;>
    exact fun _ => by omega

/-- C2, counterexample: a file whose basename lacks the `' - '` separator is
quarantined, but under a basename already rewritten by the feature
substitution — `Song feat X.mp3` is moved to `_invalid/Song ft. X.mp3`, a
different filename from the one it had before `id3_correct` ran. -/
theorem id3_quarantine_renames_counterexample :
    (id3_correct cfg0 (toStr "/src") [(toStr "/src", toStr "Song feat X.mp3")]).moved =
      [(toStr "/src/Song ft. X.mp3", toStr "/src/_invalid/Song ft. X.mp3")] ∧
    (id3_correct cfg0 (toStr "/src") [(toStr "/src", toStr "Song feat X.mp3")]).returned = [] ∧
    toStr "Song ft. X.mp3" ≠ toStr "Song feat X.mp3" ∧
    (strSplitOn (toStr " - ") (toStr "Song feat X.mp3")).length = 1 ∧
    cfg0.invalid (toStr "Song feat X.mp3") = false := by decide

/-- The slot `q` of the destination after a `file_copy` run holds the last
body written for it, and is untouched when the run never writes it. -/
theorem file_copy_apply (a c bn : String → String) (files : List String) :
    ∀ (st : DestState) (q : String × String),
      file_copy a c bn files st q =
        Option.elim (lastWrite a c bn q files) (st q) some := by
  induction files with
  | nil => intro st q; rfl
  | cons f fs ih =>
    intro st q
    show file_copy a c bn fs (copy2Write st (a f) (bn f) (c f)) q = _
    rw [ih]
    cases hl : lastWrite a c bn q fs with
    | some v => simp [lastWrite, hl]
    | none =>
      simp only [lastWrite, hl, Option.elim]
      by_cases hq : q = (a f, bn f) <;> simp [copy2Write, hq]

/-- Every file of the list has a last write for its own slot. -/
theorem lastWrite_isSome (a c bn : String → String) (files : List String)
    (f : String) (hf : f ∈ files) :
    (lastWrite a c bn (a f, bn f) files).isSome = true := by
  induction files with
  | nil => cases hf
  | cons g fs ih =>
    rcases List.mem_cons.mp hf with rfl | hf'
    · cases hl : lastWrite a c bn (a f, bn f) fs <;> simp [lastWrite, hl]
    · have := ih hf'
      cases hl : lastWrite a c bn (a f, bn f) fs <;> simp_all [lastWrite]

/-- C5: running `file_copy` twice with the same file list over the same
destination is the same as running it once — `shutil.copy2` overwrites, the
caught `FileExistsError` of `os.mkdir` never aborts the run — and after the
run every file of the list occupies its `(artist, basename)` slot; a slot
holds at most one file, so no duplicate is ever created. -/
theorem file_copy_idempotent (a c bn : String → String) (files : List String)
    (st : DestState) :
    file_copy a c bn files (file_copy a c bn files st) =
      file_copy a c bn files st ∧
    (files.all fun f =>
      ((file_copy a c bn files st) (a f, bn f)).isSome) = true := by
  constructor
  · funext q
    rw [file_copy_apply, file_copy_apply]
    cases hl : lastWrite a c bn q files <;> simp [hl]
  · rw [List.all_eq_true]
    intro f hf
    have h := lastWrite_isSome a c bn files f hf
    rw [file_copy_apply]
    cases hl : lastWrite a c bn (a f, bn f) files <;> simp_all

/-- Values written in place by the map of `dictSet` are invisible at other
keys. -/
theorem dictGet_map_set_ne (k kp : String) (v : JVal) (h : kp ≠ k) :
    ∀ s : List (String × JVal),
      dictGet (s.map fun e => if e.1 = k then (k, v) else e) kp = dictGet s kp := by
  intro s
  induction s with
  | nil => rfl
  | cons e r ih =>
    by_cases he : e.1 = k
    · simp [dictGet, he, Ne.symm h, ih]
    · by_cases hp : e.1 = kp <;> simp [dictGet, he, hp, h, ih]

/-- The entry appended by `dictSet` is invisible at other keys. -/
theorem dictGet_append_single_ne (k kp : String) (v : JVal) (h : kp ≠ k) :
    ∀ s : List (String × JVal), dictGet (s ++ [(k, v)]) kp = dictGet s kp := by
  intro s
  induction s with
  | nil => simp [dictGet, Ne.symm h]
  | cons e r ih =>
    by_cases hp : e.1 = kp <;> simp [dictGet, hp, ih]

/-- The map of `dictSet` stores the new value when the key is present. -/
theorem dictGet_map_set_self (k : String) (v : JVal) :
    ∀ s : List (String × JVal), s.any (fun e => e.1 = k) = true →
      dictGet (s.map fun e => if e.1 = k then (k, v) else e) k = some v := by
  intro s
  induction s with
  | nil => intro h; cases h
  | cons e r ih =>
    intro hany
    by_cases he : e.1 = k
    · simp [dictGet, he]
    · have : r.any (fun e => e.1 = k) = true := by simpa [he] using hany
      simp [dictGet, he, ih this]

/-- The append of `dictSet` stores the new value when the key is absent. -/
theorem dictGet_append_single_self (k : String) (v : JVal) :
    ∀ s : List (String × JVal), s.any (fun e => e.1 = k) = false →
      dictGet (s ++ [(k, v)]) k = some v := by
  intro s
  induction s with
  | nil => simp [dictGet]
  | cons e r ih =>
    intro hany
    rw [List.any_cons, Bool.or_eq_false_iff] at hany
    obtain ⟨h1, h2⟩ := hany
    have he : ¬ e.1 = k := by simpa using h1
    simp [dictGet, he, ih h2]

/-- `dictSet` stores the new value under its key. -/
theorem dictGet_dictSet_self (s : List (String × JVal)) (k : String) (v : JVal) :
    dictGet (dictSet s k v) k = some v := by
  cases ha : s.any (fun e => e.1 = k) with
  | true => simpa [dictSet, ha] using dictGet_map_set_self k v s ha
  | false => simpa [dictSet, ha] using dictGet_append_single_self k v s ha

/-- `dictSet` leaves every other key unchanged. -/
theorem dictGet_dictSet_ne (s : List (String × JVal)) (k kp : String) (v : JVal)
    (h : kp ≠ k) : dictGet (dictSet s k v) kp = dictGet s kp := by
  cases ha : s.any (fun e => e.1 = k) with
  | true => simpa [dictSet, ha] using dictGet_map_set_ne k kp v h s
  | false => simpa [dictSet, ha] using dictGet_append_single_ne k kp v h s

/-- C8: `set_source` rewrites the settings document with the key `source`
equal to the absolute expanded path and every other key unchanged;
`set_dest` does the same for `destination` only, and `log_off`/`log_on`
for `logging` only. -/
theorem settings_commands_frame (expandAbs : String → String)
    (settings : List (String × JVal)) (path k : String) :
    (dictGet (set_source expandAbs settings path) "source" =
      some (JVal.jstr (expandAbs path))) ∧
    (k ≠ "source" →
      dictGet (set_source expandAbs settings path) k = dictGet settings k) ∧
    (dictGet (set_dest expandAbs settings path) "destination" =
      some (JVal.jstr (expandAbs path))) ∧
    (k ≠ "destination" →
      dictGet (set_dest expandAbs settings path) k = dictGet settings k) ∧
    (dictGet (log_off settings) "logging" = some (JVal.jbool false)) ∧
    (k ≠ "logging" → dictGet (log_off settings) k = dictGet settings k) ∧
    (dictGet (log_on settings) "logging" = some (JVal.jbool true)) ∧
    (k ≠ "logging" → dictGet (log_on settings) k = dictGet settings k) :=
  ⟨dictGet_dictSet_self settings "source" _,
   fun h => dictGet_dictSet_ne settings "source" k _ h,
   dictGet_dictSet_self settings "destination" _,
   fun h => dictGet_dictSet_ne settings "destination" k _ h,
   dictGet_dictSet_self settings "logging" _,
   fun h => dictGet_dictSet_ne settings "logging" k _ h,
   dictGet_dictSet_self settings "logging" _,
   fun h => dictGet_dictSet_ne settings "logging" k _ h⟩

/-- The expansion function and settings document used in the C8 witness. -/
def expAbs0 : String → String := fun s => "/abs/" ++ s

/-- A concrete settings document with the three mutated keys. -/
def settings0 : List (String × JVal) :=
  [("source", JVal.jstr "/old"), ("destination", JVal.jstr "/d"),
   ("logging", JVal.jbool true)]

/-- Witness for C8 at concrete inputs: `set_source` updates `source` and
leaves `destination` as it was. -/
theorem settings_commands_frame_witness :
    dictGet (set_source expAbs0 settings0 "m") "destination" =
      dictGet settings0 "destination" ∧
    dictGet (set_source expAbs0 settings0 "m") "source" =
      some (JVal.jstr (expAbs0 "m")) :=
  ⟨(settings_commands_frame expAbs0 settings0 "m" "destination").2.1 (by decide),
   (settings_commands_frame expAbs0 settings0 "m" "destination").1⟩

/-- Appending a trailing separator to a non-empty source that does not
already end in one changes no `os.path.join` result. -/
theorem ospJoin_trailing (src : Str) (h1 : src ≠ [])
    (h2 : strEndsWith (toStr "/") src = false) (b : Str) :
    ospJoin (src ++ toStr "/") b = ospJoin src b := by
  have hsep : toStr "/" = ['/'] := rfl
  unfold ospJoin
  cases hb : strStartsWith (toStr "/") b with
  | true => simp [hb]
  | false =>
    have hne : src ++ toStr "/" ≠ [] := by simp [hsep]
    have hend : strEndsWith (toStr "/") (src ++ toStr "/") = true := by
      rw [hsep]
      show strStartsWith ['/'].reverse (src ++ ['/']).reverse = true
      simp [List.reverse_append, strStartsWith]
    simp [hb, hne, h1, h2, hend]

/-- C4: `find_files` returns the same list whether or not the source path
carries a trailing separator, in the unbounded (`os.walk`) case and in every
depth-bounded case: with the separator appended, every
`os.path.join(root, …)` the function performs produces the same string. -/
theorem find_files_trailing_slash (glb : Str → List Str) (subdirs : List Str)
    (src pattern : Str) (d : Option Nat) (h1 : src ≠ [])
    (h2 : strEndsWith (toStr "/") src = false) :
    find_files glb subdirs (src ++ toStr "/") pattern d =
      find_files glb subdirs src pattern d := by
  cases d with
  | none => simp only [find_files, List.flatMap_cons, ospJoin_trailing src h1 h2]
  | some n => simp only [find_files, ospJoin_trailing src h1 h2]

/-- Witness for C4 at concrete inputs: `/music/` and `/music` enumerate the
same files over the example filesystem. -/
theorem find_files_trailing_slash_witness :
    find_files (globMatch fsEx) [toStr "sub"] (toStr "/music" ++ toStr "/")
      (toStr "*.mp3") none =
    find_files (globMatch fsEx) [toStr "sub"] (toStr "/music") (toStr "*.mp3") none :=
  find_files_trailing_slash (globMatch fsEx) [toStr "sub"] (toStr "/music")
    (toStr "*.mp3") none (by decide) (by decide)

/-- C1, counterexample: for `A feat B - C.mp3` — exactly one `' - '`
separator, invalid pattern not matching — the artist tag `id3_correct`
writes is the feature-normalized `A ft. B`, not the claim's text before the
separator `A feat B`, and the returned list holds the renamed path, not the
file's original one. -/
theorem id3_artist_not_text_before_separator_counterexample :
    (strSplitOn (toStr " - ") (toStr "A feat B - C.mp3")).length = 2 ∧
    cfg0.invalid (toStr "A feat B - C.mp3") = false ∧
    strTrim ((strSplitOn (toStr " - ") (toStr "A feat B - C.mp3")).headD []) =
      toStr "A feat B" ∧
    (id3_correct cfg0 (toStr "/src")
        [(toStr "/src", toStr "A feat B - C.mp3")]).tagwrites =
      [(toStr "/src/A ft. B - C.mp3", toStr "A ft. B", toStr "C")] ∧
    toStr "A ft. B" ≠ toStr "A feat B" ∧
    (id3_correct cfg0 (toStr "/src")
        [(toStr "/src", toStr "A feat B - C.mp3")]).returned =
      [toStr "/src/A ft. B - C.mp3"] ∧
    toStr "/src/A feat B - C.mp3" ∉
      (id3_correct cfg0 (toStr "/src")
        [(toStr "/src", toStr "A feat B - C.mp3")]).returned := by decide

/-- C1, amended: a file whose feature-normalized basename (the basename
after the `' ft. '`/`'(ft. '` regex substitutions and rename that
`id3_correct` always performs first) does not match the invalid pattern and
is cut by `re.split(' - ', ·)` into exactly two parts gets its artist tag
set to the text before the separator of that normalized basename stripped
of whitespace, its title tag to the text after the separator with the last
four characters (`.mp3`) removed and stripped, and is put — under its
normalized path — into the list `id3_correct` returns. -/
theorem id3_correct_valid_writes_tags (cfg : Id3Config) (source : Str)
    (files : List (Str × Str)) (head b : Str)
    (hmem : (head, b) ∈ files)
    (h3 : cfg.invalid (cfg.feat2Sub (cfg.featSub b)) = false)
    (h4 : (strSplitOn (toStr " - ") (cfg.feat2Sub (cfg.featSub b))).length = 2) :
    ospJoin head (cfg.feat2Sub (cfg.featSub b)) ∈
      (id3_correct cfg source files).returned ∧
    (ospJoin head (cfg.feat2Sub (cfg.featSub b)),
      strTrim ((strSplitOn (toStr " - ") (cfg.feat2Sub (cfg.featSub b))).headD []),
      strTrim (strDropRight 4
        ((strSplitOn (toStr " - ") (cfg.feat2Sub (cfg.featSub b))).getD 1 []))) ∈
      (id3_correct cfg source files).tagwrites := by
  induction files with
  | nil => cases hmem
  | cons hb rest ih =>
    rcases List.mem_cons.mp hmem with heq | hmem'
    · subst heq
      simp [id3_correct, h3, h4]
    · obtain ⟨ihr, iht⟩ := ih hmem'
      simp only [id3_correct]
      by_cases hc : (cfg.invalid (cfg.feat2Sub (cfg.featSub hb.2)) ||
          (strSplitOn (toStr " - ") (cfg.feat2Sub (cfg.featSub hb.2))).length != 2) = true
      · rw [if_pos hc]
        exact ⟨ihr, iht⟩
      · rw [if_neg hc]
        exact ⟨List.mem_cons_of_mem _ ihr, List.mem_cons_of_mem _ iht⟩

/-- Witness for C1's amended statement: `A feat B - C.mp3`, normalized to
`A ft. B - C.mp3`, is tagged with artist `A ft. B`, title `C`, and the
normalized path is returned. -/
theorem id3_correct_valid_writes_tags_witness :
    ospJoin (toStr "/m") (cfg0.feat2Sub (cfg0.featSub (toStr "A feat B - C.mp3"))) ∈
      (id3_correct cfg0 (toStr "/m")
        [(toStr "/m", toStr "A feat B - C.mp3")]).returned ∧
    (ospJoin (toStr "/m") (cfg0.feat2Sub (cfg0.featSub (toStr "A feat B - C.mp3"))),
      strTrim ((strSplitOn (toStr " - ")
        (cfg0.feat2Sub (cfg0.featSub (toStr "A feat B - C.mp3")))).headD []),
      strTrim (strDropRight 4 ((strSplitOn (toStr " - ")
        (cfg0.feat2Sub (cfg0.featSub (toStr "A feat B - C.mp3")))).getD 1 []))) ∈
      (id3_correct cfg0 (toStr "/m")
        [(toStr "/m", toStr "A feat B - C.mp3")]).tagwrites :=
  id3_correct_valid_writes_tags cfg0 (toStr "/m")
    [(toStr "/m", toStr "A feat B - C.mp3")]
    (toStr "/m") (toStr "A feat B - C.mp3")
    (by decide) (by decide) (by decide)

/-- C2, amended: a file whose feature-normalized basename matches the
invalid pattern or does not split into exactly two parts is moved to the
`_invalid` subfolder of the source under that normalized basename — equal to
its original basename whenever the feature substitutions leave it unchanged
— and is not included in the returned list. -/
theorem id3_correct_invalid_quarantines (cfg : Id3Config) (source head b : Str)
    (h : cfg.invalid (cfg.feat2Sub (cfg.featSub b)) = true ∨
      (strSplitOn (toStr " - ") (cfg.feat2Sub (cfg.featSub b))).length ≠ 2) :
    id3_correct cfg source [(head, b)] =
      ⟨[], [(ospJoin head (cfg.feat2Sub (cfg.featSub b)),
            ospJoin (ospJoin source (toStr "_invalid"))
              (cfg.feat2Sub (cfg.featSub b)))], []⟩ := by
  have hc : (cfg.invalid (cfg.feat2Sub (cfg.featSub b)) ||
      (strSplitOn (toStr " - ") (cfg.feat2Sub (cfg.featSub b))).length != 2) = true := by
    rcases h with h | h <;> simp [h]
  simp [id3_correct, hc]

/-- Witness for C2's amended statement: `Song feat X.mp3` (no separator) is
quarantined under its normalized basename. -/
theorem id3_correct_invalid_quarantines_witness :
    id3_correct cfg0 (toStr "/src") [(toStr "/src", toStr "Song feat X.mp3")] =
      ⟨[], [(ospJoin (toStr "/src")
              (cfg0.feat2Sub (cfg0.featSub (toStr "Song feat X.mp3"))),
            ospJoin (ospJoin (toStr "/src") (toStr "_invalid"))
              (cfg0.feat2Sub (cfg0.featSub (toStr "Song feat X.mp3"))))], []⟩ :=
  id3_correct_invalid_quarantines cfg0 (toStr "/src") (toStr "/src")
    (toStr "Song feat X.mp3") (Or.inr (by decide))

/-- C10: a basename the feature substitutions leave unchanged that splits at
`' - '` into three or more parts fails the `len(tags) != 2` test, so the
file is quarantined in `_invalid` and excluded from the returned list — the
same treatment as a basename without the separator. -/
theorem id3_correct_multi_separator_quarantines (cfg : Id3Config)
    (source head b : Str)
    (h1 : cfg.featSub b = b) (h2 : cfg.feat2Sub b = b)
    (h3 : 3 ≤ (strSplitOn (toStr " - ") b).length) :
    id3_correct cfg source [(head, b)] =
      ⟨[], [(ospJoin head b, ospJoin (ospJoin source (toStr "_invalid")) b)], []⟩ := by
  have hne : (strSplitOn (toStr " - ") b).length ≠ 2 := by omega
  have hc : (cfg.invalid b || (strSplitOn (toStr " - ") b).length != 2) = true := by
    simp [hne]
  simp [id3_correct, h1, h2, hc]

/-- Witness for C10: `A - B - C.mp3` (two separators) is quarantined and the
returned list is empty. -/
theorem id3_correct_multi_separator_quarantines_witness :
    id3_correct cfgId (toStr "/s") [(toStr "/s", toStr "A - B - C.mp3")] =
      ⟨[], [(ospJoin (toStr "/s") (toStr "A - B - C.mp3"),
            ospJoin (ospJoin (toStr "/s") (toStr "_invalid"))
              (toStr "A - B - C.mp3"))], []⟩ :=
  id3_correct_multi_separator_quarantines cfgId (toStr "/s") (toStr "/s")
    (toStr "A - B - C.mp3") rfl rfl (by decide)
